import Mathlib

/-!
Verification of the persistent-memory and generation-pipeline core of the
`linkedin-post-twice-daily` repository, a shallow embedding of
`src/linkedin_agents.py` in Lean.

The embedding models:
* the `Memory` class (JSON store with `rules` and `history`):
  `_load`, `add_rule`, `add_post_history`, `get_performance_insights`,
  `archive_old_posts`;
* the `Agent.run` retry loop (rate-limit / timeout / other-error handling);
* `Critic.run` (directive-line extraction feeding `Memory.add_rule`);
* `ResearchManager.run` (fan-out over four sources, merge with placeholders);
* `Orchestrator._publish_phase` (publish outcome gating the history write).

Python strings are modelled by Lean `String`; the Python string operations
used by the code (`strip`, `split`, `startswith`, `replace`, `in`) are
re-implemented on the character list so that they are executable by the
kernel.  Machine-level JSON and file I/O are modelled by an explicit
`FileState` value threaded through the store operations.
-/

namespace LinkedInAgents

/-! ### Python string primitives -/

/-- Characters removed by Python `str.strip()` (the ASCII whitespace set;
the code only ever strips text coming from model output lines, where this
is the relevant set). -/
def pySpace (c : Char) : Bool :=
  c = ' ' || c = '\t' || c = '\n' || c = '\r' || c = '\x0b' || c = '\x0c'

/-- Python `str.strip()` on a character list: drop whitespace from both ends. -/
def stripChars (s : List Char) : List Char :=
  ((s.dropWhile pySpace).reverse.dropWhile pySpace).reverse

/-- Python `str.strip()`. -/
def pyStrip (s : String) : String := ⟨stripChars s.data⟩

/-- Python `str.split('\n')` on a character list: split at every newline,
keeping empty pieces (so the result is always non-empty). -/
def splitNlChars : List Char → List (List Char)
  | [] => [[]]
  | c :: rest =>
    match splitNlChars rest with
    | [] => [[]]
    | line :: lines =>
      if c = '\n' then [] :: line :: lines else (c :: line) :: lines

/-- Python `str.split('\n')`. -/
def pySplitNl (s : String) : List String :=
  (splitNlChars s.data).map fun l => ⟨l⟩

/-- Python `str.startswith(pat)`. -/
def pyStartsWith (s pat : String) : Bool :=
  pat.data.isPrefixOf s.data

/-- Python `pat in s` (substring containment). -/
def pyIn (pat s : String) : Bool :=
  decide (pat.data <:+: s.data)

/-- Python `str.replace(old, new)` on character lists: replace every
non-overlapping occurrence of `pat`, scanning left to right.  The first
argument is fuel (one unit per character consumed); callers pass the
length of the subject string.  For the (unused) empty pattern the subject
is returned unchanged. -/
def replaceChars (pat repl : List Char) : Nat → List Char → List Char
  | _, [] => []
  | 0, s => s
  | fuel + 1, c :: rest =>
    if pat ≠ [] ∧ pat.isPrefixOf (c :: rest) then
      repl ++ replaceChars pat repl fuel ((c :: rest).drop pat.length)
    else
      c :: replaceChars pat repl fuel rest

/-- Python `s.replace(old, new)` (all occurrences replaced). -/
def pyReplace (s pat repl : String) : String :=
  ⟨replaceChars pat.data repl.data s.data.length s.data⟩

/-! ### Data model

The JSON store (`memory.json`) holds `{"rules": [...], "history": [...]}`
plus two optional scalar fields.  A history entry's `"date"` field is fed
to Python `int(...)` by `archive_old_posts`; we model it by whether that
conversion succeeds (`num n`) or raises `ValueError`/`TypeError`
(`raw s`, covering ISO strings, `"manual"`, `None`, ...). -/

/-- The `"date"` field of a history entry, classified by Python
`int(...)` parseability. -/
inductive JsonDate where
  | num (n : Int)
  | raw (s : String)
deriving DecidableEq, Repr

/-- One element of the store's `"history"` list, as written by
`Memory.add_post_history` (with `stats` flattened into its two keys). -/
structure PostRecord where
  date : JsonDate
  topic : String
  vibe : String
  urn : String
  likes : Int
  comments : Int
deriving DecidableEq, Repr

/-- The in-memory form of the JSON store document. -/
structure Store where
  rules : List String
  history : List PostRecord
  latestCommentPack : Option String := none
  lastUpdated : Option String := none
deriving DecidableEq, Repr

/-- The freshly seeded store `{"rules": [], "history": []}`. -/
def emptyStore : Store := { rules := [], history := [] }

/-- The on-disk state of the memory file: absent, present but not valid
JSON, or a valid serialized store. -/
inductive FileState where
  | missing
  | corrupt (content : String)
  | valid (s : Store)
deriving DecidableEq

/-! ### Memory operations

`Memory._load` (lines 102-115) opens the file read-only; on
`json.JSONDecodeError` it logs and returns `{"rules": [], "history": []}`
without writing anything, on `FileNotFoundError` likewise.  `Memory._save`
(lines 117-121) overwrites the file with the serialized store. -/

/-- The result of `Memory._load`: the returned document together with the
file state after the call (the method only ever opens the file for
reading, so the file state is returned unchanged). -/
def memLoad : FileState → Store × FileState
  | .missing => (emptyStore, .missing)
  | .corrupt c => (emptyStore, .corrupt c)
  | .valid s => (s, .valid s)

/-- The effect of `Memory._save(data)` on the file. -/
def memSave (data : Store) (_fs : FileState) : FileState :=
  .valid data

/-- `Memory.add_rule` (lines 127-133): load, append the rule only when it
is not already present (case-sensitive `in` on the list), and save only in
that case.  Returns the store after the call together with whether
`_save` ran. -/
def addRule (rule : String) (s : Store) : Store × Bool :=
  if rule ∈ s.rules then (s, false)
  else ({ s with rules := s.rules ++ [rule] }, true)

/-- A sequence of `add_rule` calls, in order. -/
def addRules (calls : List String) (s : Store) : Store :=
  calls.foldl (fun st r => (addRule r st).1) s

/-- `Memory.add_post_history` (lines 135-150): append one entry with the
current time as date (`datetime.now().isoformat()`, a string on which
`int(...)` raises, hence `JsonDate.raw`) and zeroed stats. -/
def addPostHistory (now topic vibe urn : String) (s : Store) : Store :=
  { s with
    history := s.history ++
      [{ date := .raw now, topic := topic, vibe := vibe, urn := urn,
         likes := 0, comments := 0 }] }

/-- The folded body of Python `max(history, key=lambda x: x["stats"]["likes"])`:
`max` keeps the current best unless a later element is strictly greater,
so it returns the first element attaining the maximum. -/
def maxLikesStep (best r : PostRecord) : PostRecord :=
  if r.likes > best.likes then r else best

/-- `Memory.get_performance_insights` (lines 162-173). -/
def getPerformanceInsights (s : Store) : String :=
  match s.history with
  | [] => "No past performance data available."
  | x :: rest =>
    let best := rest.foldl maxLikesStep x
    if best.likes > 0 then
      "🏆 BEST PERFORMING VIBE: " ++ best.vibe ++ " (Topic: " ++ best.topic
        ++ " - " ++ toString best.likes ++ " likes). REPEAT THIS STYLE."
    else
      "Not enough data to determine best vibe yet."

/-! ### Archival -/

/-- Milliseconds per day, as in `days * 24 * 60 * 60 * 1000`. -/
def msPerDay : Int := 24 * 60 * 60 * 1000

/-- The cutoff `int(time.time() * 1000) - (days * 24 * 60 * 60 * 1000)`
computed by `archive_old_posts`, with the current epoch-milliseconds value
passed in explicitly. -/
def cutoffOf (nowMs : Int) (days : Int) : Int :=
  nowMs - days * msPerDay

/-- The per-record keep test of `archive_old_posts` (lines 228-236): a
record is kept when `int(post["date"])` parses and is `> cutoff`, or when
`int(...)` raises (`except (ValueError, TypeError)` keeps the record).
The source's extra `post.get("date") == "manual"` disjunct is unreachable:
`int("manual")` raises before that comparison, landing in the keep branch
anyway. -/
def keepsPost (cutoff : Int) (p : PostRecord) : Bool :=
  match p.date with
  | .num n => decide (n > cutoff)
  | .raw _ => true

/-- `Memory.archive_old_posts` (lines 213-259) acting on the main store
and the archive file's record list.  Returns the store after the call,
the archive list after the call, and the returned count.  When nothing is
archived the store is not re-saved, so both lists are unchanged. -/
def archiveOldPosts (nowMs : Int) (days : Int) (s : Store)
    (archiveFile : List PostRecord) : Store × List PostRecord × Nat :=
  if s.history = [] then (s, archiveFile, 0)
  else
    let cutoff := cutoffOf nowMs days
    let newHistory := s.history.filter (keepsPost cutoff)
    let archived := s.history.filter (fun p => ! keepsPost cutoff p)
    if archived = [] then (s, archiveFile, 0)
    else ({ s with history := newHistory }, archiveFile ++ archived,
          archived.length)

/-! ### The generation retry loop

`Agent.run` (lines 281-328): with a configured API key it loops
`for attempt in range(max_retries)`.  Each iteration either returns the
stripped response text, or handles one of three failure shapes:
`requests.exceptions.Timeout` (retried while `attempt < max_retries - 1`,
else `return None`), any other exception whose text contains `"429"` or
`"Resource exhausted"` (retried under the same bound), or any other
exception (immediate `return None`).  We model the external call as a
function from the attempt index to an outcome. -/

/-- Outcome of one `model.generate_content` call: the response text, a
`requests.exceptions.Timeout`, or any other exception carrying `str(e)`. -/
inductive CallOutcome where
  | success (text : String)
  | timeout
  | error (msg : String)
deriving DecidableEq, Repr

/-- The rate-limit classification
`"429" in error_str or "Resource exhausted" in error_str` (line 320). -/
def isRateLimited (msg : String) : Bool :=
  pyIn "429" msg || pyIn "Resource exhausted" msg

/-- The `for attempt in range(max_retries)` loop of `Agent.run`, with loop
iterations remaining as structural fuel (`remaining = maxRetries -
attempt` at every call).  Returns the function result together with the
number of attempts made. -/
def runLoop (call : Nat → CallOutcome) (maxRetries : Nat) :
    Nat → Nat → Option String × Nat
  | 0, attempt => (none, attempt)
  | remaining + 1, attempt =>
    match call attempt with
    | .success t => (some (pyStrip t), attempt + 1)
    | .timeout =>
      if attempt < maxRetries - 1 then
        runLoop call maxRetries remaining (attempt + 1)
      else (none, attempt + 1)
    | .error msg =>
      if isRateLimited msg ∧ attempt < maxRetries - 1 then
        runLoop call maxRetries remaining (attempt + 1)
      else (none, attempt + 1)

/-- `Agent.run`: without an API key it returns the deterministic mock
string and makes no attempt; with one it runs the retry loop from
attempt 0. -/
def agentRun (apiKey : Option String) (name inputData : String)
    (call : Nat → CallOutcome) (maxRetries : Nat) : Option String × Nat :=
  match apiKey with
  | none => (some ("[" ++ name ++ " Output based on '" ++ inputData ++ "']"), 0)
  | some _ => runLoop call maxRetries maxRetries 0

/-! ### The review stage -/

/-- The rule text extracted from one feedback line that passed the
`line.strip().startswith("RULE:")` test:
`line.strip().replace("RULE:", "").strip()` (line 948).  Note Python
`replace` removes every occurrence of `"RULE:"` in the line, not only the
leading marker. -/
def extractedRule (line : String) : String :=
  pyStrip (pyReplace (pyStrip line) "RULE:" "")

/-- The rule-directive scan of `Critic.run` (lines 946-949), folded over
the store: each line whose stripped form starts with `"RULE:"` is passed
to `Memory.add_rule`, in order. -/
def parseRuleLines (feedback : String) (s : Store) : Store :=
  (pySplitNl feedback).foldl
    (fun st line =>
      if pyStartsWith (pyStrip line) "RULE:" then (addRule (extractedRule line) st).1
      else st)
    s

/-- `Critic.run` (lines 938-951), with the result of the underlying
`Agent.run` call passed in (`none` models both a `None` return and the
empty string, which Python `if not feedback` also treats as falsy —
represented here by testing the string).  Returns the critic's return
value together with the store after the call. -/
def criticRun (genResult : Option String) (s : Store) : Option String × Store :=
  match genResult with
  | none => (none, s)
  | some feedback =>
    if feedback = "" then (none, s)
    else (some feedback, parseRuleLines feedback s)

/-! ### The research aggregator

`ResearchManager.run` (lines 534-583) submits four fetch tasks to a
thread pool and collects `results[source] = data` from `as_completed`
futures in whatever order they finish, skipping any future whose
`.result(timeout=30)` raises.  It then builds `full_input` by looking
each source up in the dict with a fixed per-source fallback string, in a
fixed textual order, and hands the document to the base `Agent.run`. -/

/-- The four research sources, in the canonical order in which their
sections appear in the merged document. -/
inductive Source where
  | hackernews
  | newsapi
  | arxiv
  | tavily
deriving DecidableEq, Repr

/-- The canonical source order. -/
def canonicalSources : List Source :=
  [.hackernews, .newsapi, .arxiv, .tavily]

/-- The fallback placeholder used when a source is absent from the
results dict (lines 571-574). -/
def placeholderOf : Source → String
  | .hackernews => "HackerNews data unavailable."
  | .newsapi => "NewsAPI data unavailable."
  | .arxiv => "arXiv data unavailable."
  | .tavily => "Tavily data unavailable."

/-- One step of the `as_completed` collection loop: a successfully
fetched source sets its own key in the results dict, a failed fetch
(raised future) adds nothing. -/
def resultsStep (fetch : Source → Option String)
    (acc : Source → Option String) (s : Source) : Source → Option String :=
  match fetch s with
  | some d => fun t => if t = s then some d else acc t
  | none => acc

/-- The `results` dict built by the `as_completed` loop (lines 562-568),
processed in completion order.  `fetch s = none` means the future for `s`
raised or timed out. -/
def resultsOf (completionOrder : List Source) (fetch : Source → Option String) :
    Source → Option String :=
  completionOrder.foldl (resultsStep fetch) (fun _ => none)

/-- One section's text in the merged document: the dict entry or the
placeholder (`results.get(source, placeholder)`). -/
def sectionText (results : Source → Option String) (s : Source) : String :=
  (results s).getD (placeholderOf s)

/-- The merged `full_input` document (lines 576-582). -/
def mergedDocument (inputData : String) (results : Source → Option String) :
    String :=
  inputData ++ "\n\n"
    ++ "REAL-TIME HACKERNEWS DATA:\n" ++ sectionText results .hackernews ++ "\n\n"
    ++ "REAL-TIME NEWSAPI DATA:\n" ++ sectionText results .newsapi ++ "\n\n"
    ++ "LATEST ACADEMIC PAPERS (ARXIV):\n" ++ sectionText results .arxiv ++ "\n\n"
    ++ "DEEP WEB SEARCH (TAVILY):\n" ++ sectionText results .tavily

/-- `ResearchManager.run`: merge, then call the underlying generation
capability (`super().run`) on the merged document. -/
def researchRun (inputData : String) (completionOrder : List Source)
    (fetch : Source → Option String) (gen : String → Option String) :
    Option String :=
  gen (mergedDocument inputData (resultsOf completionOrder fetch))

/-! ### The publish phase -/

/-- `Orchestrator._publish_phase` (lines 1305-1325): run the critic on
the full package (its only store effect is rule accumulation), publish,
and append a history record only when the returned URN is truthy
(`if post_urn:` — `None` and the empty string both skip the write).
`criticGen` is the outcome of the critic's underlying generation call and
`postUrn` the value returned by `LinkedInConnector.post_content`. -/
def publishPhase (now topic vibe : String) (criticGen : Option String)
    (postUrn : Option String) (s : Store) : Option String × Store :=
  let s1 := (criticRun criticGen s).2
  match postUrn with
  | none => (none, s1)
  | some urn =>
    if urn = "" then (some urn, s1)
    else (some urn, addPostHistory now topic vibe urn s1)

/-! ### Helper lemmas -/

/-- One `add_rule` call preserves duplicate-freedom of the rules list. -/
theorem addRule_rules_nodup {s : Store} (h : s.rules.Nodup) (r : String) :
    ((addRule r s).1).rules.Nodup := by
  unfold addRule
  by_cases hr : r ∈ s.rules
  · simpa [hr] using h
  · simp only [hr, if_neg, ite_false]
    simp [List.nodup_append, h, List.Disjoint]
    intro a ha har
    exact hr (har ▸ ha)

/-- A sequence of `add_rule` calls preserves duplicate-freedom. -/
theorem addRules_rules_nodup (calls : List String) {s : Store}
    (h : s.rules.Nodup) : (addRules calls s).rules.Nodup := by
  induction calls generalizing s with
  | nil => exact h
  | cons c rest ih => exact ih (addRule_rules_nodup h c)

/-- `add_rule` never touches the history list. -/
theorem addRule_history (r : String) (s : Store) :
    ((addRule r s).1).history = s.history := by
  unfold addRule
  by_cases hr : r ∈ s.rules <;> simp [hr]

/-- The rule-directive scan never touches the history list. -/
theorem parseRuleLines_history (feedback : String) (s : Store) :
    (parseRuleLines feedback s).history = s.history := by
  unfold parseRuleLines
  generalize pySplitNl feedback = lines
  induction lines generalizing s with
  | nil => rfl
  | cons l rest ih =>
    simp only [List.foldl_cons]
    by_cases hl : pyStartsWith (pyStrip l) "RULE:" = true
    · rw [if_pos hl, ih, addRule_history]
    · rw [if_neg hl, ih]

/-- `Critic.run` never touches the history list. -/
theorem criticRun_history (genResult : Option String) (s : Store) :
    ((criticRun genResult s).2).history = s.history := by
  cases genResult with
  | none => rfl
  | some feedback =>
    by_cases hf : feedback = ""
    · simp [criticRun, hf]
    · simp [criticRun, hf, parseRuleLines_history]

/-! ### C1: rule-set uniqueness -/

/-- C1 counterexample: the claim quantifies over every starting store
state, but `add_rule` only guards the rule being added — starting from a
store whose rules list already contains a duplicate, `add_rule "b"` does
append and persist, and the persisted rules list still contains two
textually identical entries. -/
theorem addRule_dup_initial_counterexample :
    (addRule "b" { rules := ["a", "a"], history := [] }).2 = true ∧
      ¬ ((addRule "b" { rules := ["a", "a"], history := [] }).1).rules.Nodup := by
  decide

/-- C1 (amended): starting from any store state whose rules list is
duplicate-free, every sequence of `add_rule` calls leaves the persisted
rules list free of textually identical entries; `add_rule` is a no-op
(store unchanged, nothing persisted) on a rule already present under
case-sensitive exact match, and otherwise appends the rule and persists. -/
theorem addRule_uniqueness (s : Store) (calls : List String)
    (h : s.rules.Nodup) :
    (addRules calls s).rules.Nodup ∧
      (∀ r, r ∈ s.rules → addRule r s = (s, false)) ∧
      (∀ r, r ∉ s.rules →
        (addRule r s).1 = { s with rules := s.rules ++ [r] } ∧
          (addRule r s).2 = true) := by
  refine ⟨addRules_rules_nodup calls h, ?_, ?_⟩
  · intro r hr
    simp [addRule, hr]
  · intro r hr
    simp [addRule, hr]

/-- C1 witness: a concrete duplicate-free start, with a repeated call in
the sequence. -/
theorem addRule_uniqueness_witness :
    (addRules ["a", "a", "b"] emptyStore).rules.Nodup ∧
      (∀ r, r ∈ emptyStore.rules → addRule r emptyStore = (emptyStore, false)) ∧
      (∀ r, r ∉ emptyStore.rules →
        (addRule r emptyStore).1 = { emptyStore with rules := emptyStore.rules ++ [r] } ∧
          (addRule r emptyStore).2 = true) :=
  addRule_uniqueness emptyStore ["a", "a", "b"] (by decide)

/-! ### C2: archive partition correctness -/

/-- C2 counterexample: the code keeps a record only when `date > cutoff`,
so a record whose timestamp equals the cutoff exactly is moved to the
archive even though it is not strictly older than the cutoff.  With
`nowMs = 90 * msPerDay` and `days = 90` the cutoff is `0`; the record
with timestamp `0` is archived (count 1) although `¬ (0 < cutoff)`. -/
theorem archiveOldPosts_boundary_counterexample :
    archiveOldPosts (90 * msPerDay) 90
        { rules := [],
          history := [{ date := .num 0, topic := "t", vibe := "v",
                        urn := "u", likes := 0, comments := 0 }] } []
      = ({ rules := [], history := [] },
         [{ date := .num 0, topic := "t", vibe := "v", urn := "u",
            likes := 0, comments := 0 }], 1) ∧
      ¬ ((0 : Int) < cutoffOf (90 * msPerDay) 90) := by
  decide

/-- When no record fails the keep test, `archive_old_posts` changes
nothing and returns 0 (covering both the empty-history early return and
the `if archived:` guard). -/
theorem archiveOldPosts_eq_of_no_archived (nowMs days : Int) (s : Store)
    (archiveFile : List PostRecord)
    (h : s.history.filter (fun p => ! keepsPost (cutoffOf nowMs days) p) = []) :
    archiveOldPosts nowMs days s archiveFile = (s, archiveFile, 0) := by
  unfold archiveOldPosts
  by_cases h0 : s.history = []
  · simp [h0]
  · simp [h0, h]

/-- When some record fails the keep test, `archive_old_posts` keeps the
passing records, appends the failing ones to the archive, and returns
their count. -/
theorem archiveOldPosts_eq_of_archived (nowMs days : Int) (s : Store)
    (archiveFile : List PostRecord)
    (h : s.history.filter (fun p => ! keepsPost (cutoffOf nowMs days) p) ≠ []) :
    archiveOldPosts nowMs days s archiveFile =
      ({ s with history := s.history.filter (keepsPost (cutoffOf nowMs days)) },
       archiveFile ++ s.history.filter (fun p => ! keepsPost (cutoffOf nowMs days) p),
       (s.history.filter (fun p => ! keepsPost (cutoffOf nowMs days) p)).length) := by
  have h0 : s.history ≠ [] := by
    intro he
    rw [he] at h
    simp at h
  unfold archiveOldPosts
  simp [h0, h]

/-- C2 (amended): `archive_old_posts(days)` moves to the archive store
exactly the records whose timestamp parses and is less than OR EQUAL TO
the cutoff (current time minus the retention window) — i.e. every record
not strictly newer than the cutoff — conservatively keeps every record
whose timestamp cannot be parsed, leaves the kept records untouched and
in order, returns the count moved, and primary history plus archive after
the call together form the original record set. -/
theorem archiveOldPosts_partition (nowMs days : Int) (s : Store)
    (archiveFile : List PostRecord) :
    ∃ moved : List PostRecord,
      (archiveOldPosts nowMs days s archiveFile).2.1 = archiveFile ++ moved ∧
      (archiveOldPosts nowMs days s archiveFile).2.2 = moved.length ∧
      ((archiveOldPosts nowMs days s archiveFile).1.history ++ moved).Perm
        s.history ∧
      (archiveOldPosts nowMs days s archiveFile).1.history.Sublist s.history ∧
      (∀ p ∈ moved, ∃ n, p.date = JsonDate.num n ∧ n ≤ cutoffOf nowMs days) ∧
      (∀ p ∈ (archiveOldPosts nowMs days s archiveFile).1.history,
        ∀ n, p.date = JsonDate.num n → cutoffOf nowMs days < n) ∧
      (∀ p ∈ s.history, (∀ n, p.date ≠ JsonDate.num n) →
        p ∈ (archiveOldPosts nowMs days s archiveFile).1.history) ∧
      (archiveOldPosts nowMs days s archiveFile).1.rules = s.rules := by
  by_cases ha : s.history.filter
      (fun p => ! keepsPost (cutoffOf nowMs days) p) = []
  · refine ⟨[], ?_⟩
    have hkeep : ∀ p ∈ s.history, keepsPost (cutoffOf nowMs days) p = true := by
      intro p hp
      have := List.filter_eq_nil_iff.mp ha p hp
      simpa using this
    rw [archiveOldPosts_eq_of_no_archived nowMs days s archiveFile ha]
    refine ⟨by simp, rfl, by simp, List.Sublist.refl _, by simp, ?_, ?_, rfl⟩
    · intro p hp n hdn
      have := hkeep p hp
      unfold keepsPost at this
      rw [hdn] at this
      simpa using this
    · intro p hp _
      exact hp
  · refine ⟨s.history.filter (fun p => ! keepsPost (cutoffOf nowMs days) p), ?_⟩
    rw [archiveOldPosts_eq_of_archived nowMs days s archiveFile ha]
    refine ⟨rfl, rfl, List.filter_append_perm _ s.history,
      List.filter_sublist _, ?_, ?_, ?_, rfl⟩
    · intro p hp
      have hnk := List.of_mem_filter hp
      cases hd : p.date with
      | num n =>
        refine ⟨n, rfl, ?_⟩
        unfold keepsPost at hnk
        rw [hd] at hnk
        simp at hnk
        omega
      | raw str =>
        unfold keepsPost at hnk
        rw [hd] at hnk
        simp at hnk
    · intro p hp n hdn
      have hk := List.of_mem_filter hp
      unfold keepsPost at hk
      rw [hdn] at hk
      simpa using hk
    · intro p hp hraw
      refine List.mem_filter.mpr ⟨hp, ?_⟩
      unfold keepsPost
      cases hd : p.date with
      | num n => exact absurd hd (hraw n)
      | raw str => rfl

/-- C2 witness: a history spanning both sides of the cutoff (one record
below it, one above it, one unparseable), with an empty starting archive. -/
theorem archiveOldPosts_partition_witness :
    ∃ moved : List PostRecord,
      (archiveOldPosts (91 * msPerDay) 90
          { rules := ["r"],
            history := [
              { date := .num 0, topic := "old", vibe := "A", urn := "u1",
                likes := 0, comments := 0 },
              { date := .num (2 * 86400000), topic := "new", vibe := "B",
                urn := "u2", likes := 0, comments := 0 },
              { date := .raw "2024-01-01T00:00:00", topic := "iso", vibe := "C",
                urn := "u3", likes := 0, comments := 0 }] } []).2.1
        = [] ++ moved ∧
      (archiveOldPosts (91 * msPerDay) 90
          { rules := ["r"],
            history := [
              { date := .num 0, topic := "old", vibe := "A", urn := "u1",
                likes := 0, comments := 0 },
              { date := .num (2 * 86400000), topic := "new", vibe := "B",
                urn := "u2", likes := 0, comments := 0 },
              { date := .raw "2024-01-01T00:00:00", topic := "iso", vibe := "C",
                urn := "u3", likes := 0, comments := 0 }] } []).2.2
        = moved.length ∧
      ((archiveOldPosts (91 * msPerDay) 90
          { rules := ["r"],
            history := [
              { date := .num 0, topic := "old", vibe := "A", urn := "u1",
                likes := 0, comments := 0 },
              { date := .num (2 * 86400000), topic := "new", vibe := "B",
                urn := "u2", likes := 0, comments := 0 },
              { date := .raw "2024-01-01T00:00:00", topic := "iso", vibe := "C",
                urn := "u3", likes := 0, comments := 0 }] } []).1.history
        ++ moved).Perm
        [{ date := .num 0, topic := "old", vibe := "A", urn := "u1",
           likes := 0, comments := 0 },
         { date := .num (2 * 86400000), topic := "new", vibe := "B",
           urn := "u2", likes := 0, comments := 0 },
         { date := .raw "2024-01-01T00:00:00", topic := "iso", vibe := "C",
           urn := "u3", likes := 0, comments := 0 }] ∧
      (∀ p ∈ moved, ∃ n, p.date = JsonDate.num n ∧
        n ≤ cutoffOf (91 * msPerDay) 90) :=
  match archiveOldPosts_partition (91 * msPerDay) 90
      { rules := ["r"],
        history := [
          { date := .num 0, topic := "old", vibe := "A", urn := "u1",
            likes := 0, comments := 0 },
          { date := .num (2 * 86400000), topic := "new", vibe := "B",
            urn := "u2", likes := 0, comments := 0 },
          { date := .raw "2024-01-01T00:00:00", topic := "iso", vibe := "C",
            urn := "u3", likes := 0, comments := 0 }] } [] with
  | ⟨moved, h1, h2, h3, _, h5, _, _, _⟩ => ⟨moved, h1, h2, h3, h5⟩

/-! ### C3: retry bound on rate-limit errors -/

/-- C3: with max attempts 3 and a configured capability that raises a
rate-limit-classified error on every call, `Agent.run` makes exactly 3
attempts and then returns the failure signal `None`; the attempt counter
3 shows no fourth call is made. -/
theorem retry_bound (key name input : String) (call : Nat → CallOutcome)
    (h : ∀ i, ∃ m, call i = CallOutcome.error m ∧ isRateLimited m = true) :
    agentRun (some key) name input call 3 = (none, 3) := by
  obtain ⟨m0, h0, r0⟩ := h 0
  obtain ⟨m1, h1, r1⟩ := h 1
  obtain ⟨m2, h2, r2⟩ := h 2
  simp [agentRun, runLoop, h0, h1, h2, r0, r1, r2]

/-- C3 witness: the literal quota-exhaustion message used by the API. -/
theorem retry_bound_witness :
    agentRun (some "key") "Ghostwriter" "draft"
      (fun _ => CallOutcome.error "429 Resource exhausted") 3 = (none, 3) :=
  retry_bound "key" "Ghostwriter" "draft" _
    (fun _ => ⟨"429 Resource exhausted", rfl, by decide⟩)

/-! ### C4: non-transient errors and retries -/

/-- C4 counterexample: a `requests.exceptions.Timeout` is not classified
as rate-limited, yet the code retries it — with a capability that times
out on every call and max attempts 3, the run makes 3 attempts, not the
single attempt the claim requires. -/
theorem timeout_retried_counterexample :
    agentRun (some "key") "Agent" "input" (fun _ => CallOutcome.timeout) 3
      = (none, 3) ∧ (3 : Nat) ≠ 1 := by
  decide

/-- C4 (amended): whenever a generation attempt fails with an error that
is neither a request timeout nor classified as rate-limited, `Agent.run`
stops immediately and returns the failure signal without making any
further attempt, at every live loop iteration. -/
theorem nontransient_stops_immediately (call : Nat → CallOutcome)
    (maxRetries remaining attempt : Nat) (m : String)
    (hcall : call attempt = CallOutcome.error m)
    (hrl : isRateLimited m = false) :
    runLoop call maxRetries (remaining + 1) attempt = (none, attempt + 1) := by
  simp [runLoop, hcall, hrl]

/-- C4 witness: a non-rate-limited error on the first attempt ends the
run at one attempt even though two more were allowed. -/
theorem nontransient_stops_immediately_witness :
    runLoop (fun _ => CallOutcome.error "500 internal error") 3 3 0 = (none, 1) :=
  nontransient_stops_immediately _ 3 2 0 "500 internal error" rfl (by decide)

/-! ### C5: review directive extraction -/

/-- Folding the per-line conditional over all lines equals folding the
unconditional `add_rule` step over just the directive lines. -/
theorem foldl_ruleLines_eq_filter (lines : List String) (s : Store) :
    lines.foldl
        (fun st line =>
          if pyStartsWith (pyStrip line) "RULE:" then
            (addRule (extractedRule line) st).1
          else st) s
      = (lines.filter (fun line => pyStartsWith (pyStrip line) "RULE:")).foldl
          (fun st line => (addRule (extractedRule line) st).1) s := by
  induction lines generalizing s with
  | nil => rfl
  | cons l rest ih =>
    by_cases hl : pyStartsWith (pyStrip l) "RULE:" = true
    · simp [List.filter_cons, hl, ih]
    · simp [List.filter_cons, hl, ih]

/-- C5 counterexample: Python `line.strip().replace("RULE:", "")` removes
every occurrence of the marker, not only the leading one.  On the
feedback line `"RULE: no RULE: marker"` the code adds the rule
`"no  marker"`, not the claim's leading-marker-stripped remainder
`"no RULE: marker"`. -/
theorem criticRun_replace_all_counterexample :
    (criticRun (some "RULE: no RULE: marker") emptyStore).2.rules
        = ["no  marker"] ∧
      ("no  marker" : String) ≠ "no RULE: marker" := by
  decide

/-- C5 (amended): for every feedback text the underlying generation call
returns, `Critic.run` adds to the store, via `add_rule` and in line
order, exactly one candidate rule per line that after
leading-whitespace trim begins with `"RULE:"` — the candidate being the
line with EVERY occurrence of the marker `"RULE:"` removed and
surrounding whitespace trimmed (`extractedRule`) — adds nothing for other
lines, and returns the full feedback text unchanged as its own output. -/
theorem criticRun_rule_extraction (feedback : String) (s : Store)
    (hne : feedback ≠ "") :
    (criticRun (some feedback) s).1 = some feedback ∧
      (criticRun (some feedback) s).2
        = ((pySplitNl feedback).filter
              (fun line => pyStartsWith (pyStrip line) "RULE:")).foldl
            (fun st line => (addRule (extractedRule line) st).1) s ∧
      ((criticRun (some feedback) s).2).history = s.history := by
  refine ⟨by simp [criticRun, hne], ?_, criticRun_history _ _⟩
  simp only [criticRun, hne, if_neg, ite_false]
  exact foldl_ruleLines_eq_filter (pySplitNl feedback) s

/-- C5 witness: one directive line and one ordinary line. -/
theorem criticRun_rule_extraction_witness :
    (criticRun (some "REJECT: too salesy\n RULE: Avoid buzzwords ") emptyStore).1
        = some "REJECT: too salesy\n RULE: Avoid buzzwords " ∧
      (criticRun (some "REJECT: too salesy\n RULE: Avoid buzzwords ") emptyStore).2
        = ((pySplitNl "REJECT: too salesy\n RULE: Avoid buzzwords ").filter
              (fun line => pyStartsWith (pyStrip line) "RULE:")).foldl
            (fun st line => (addRule (extractedRule line) st).1) emptyStore ∧
      ((criticRun (some "REJECT: too salesy\n RULE: Avoid buzzwords ") emptyStore).2).history
        = emptyStore.history :=
  criticRun_rule_extraction "REJECT: too salesy\n RULE: Avoid buzzwords "
    emptyStore (by decide)

/-! ### C6: review failure propagation -/

/-- C6: when the underlying generation call signals failure, `Critic.run`
returns the failure signal and the store — rules included — is left
exactly as it was (no directive parsing happens). -/
theorem criticRun_failure_propagation (s : Store) :
    criticRun none s = (none, s) := rfl

/-! ### C7: partial research degradation with canonical ordering -/

/-- A source absent from the completion order is never written into the
results dict. -/
theorem resultsStep_foldl_not_mem (fetch : Source → Option String) :
    ∀ (order : List Source) (acc : Source → Option String) (s : Source),
      s ∉ order → order.foldl (resultsStep fetch) acc s = acc s := by
  intro order
  induction order with
  | nil => intro acc s _; rfl
  | cons x rest ih =>
    intro acc s hs
    have hxs : s ≠ x := fun he => hs (he ▸ List.mem_cons_self x rest)
    have hrest : s ∉ rest := fun h => hs (List.mem_cons_of_mem x h)
    simp only [List.foldl_cons]
    rw [ih _ s hrest]
    unfold resultsStep
    cases hf : fetch x with
    | some d => simp [hxs]
    | none => rfl

/-- A source appearing exactly once in the completion order ends up in
the results dict exactly when its fetch succeeded, whatever the order. -/
theorem resultsStep_foldl_mem (fetch : Source → Option String) :
    ∀ (order : List Source) (acc : Source → Option String) (s : Source),
      s ∈ order → order.Nodup →
      order.foldl (resultsStep fetch) acc s
        = match fetch s with
          | some d => some d
          | none => acc s := by
  intro order
  induction order with
  | nil => intro acc s hs _; cases hs
  | cons x rest ih =>
    intro acc s hs hnd
    have hx : x ∉ rest := (List.nodup_cons.mp hnd).1
    have hndr : rest.Nodup := (List.nodup_cons.mp hnd).2
    simp only [List.foldl_cons]
    by_cases hsx : s = x
    · subst hsx
      rw [resultsStep_foldl_not_mem fetch rest _ s hx]
      unfold resultsStep
      cases hf : fetch s with
      | some d => simp
      | none => rfl
    · have hsr : s ∈ rest := by
        cases List.mem_cons.mp hs with
        | inl h => exact absurd h hsx
        | inr h => exact h
      rw [ih _ s hsr hndr]
      have hacc : resultsStep fetch acc x s = acc s := by
        unfold resultsStep
        cases hf : fetch x with
        | some d => simp [hsx]
        | none => rfl
      cases hf : fetch s with
      | some d => simp
      | none => simp [hacc]

/-- For any completion order covering each source exactly once, the
collected results dict agrees with the per-source fetch outcomes. -/
theorem resultsOf_eq_fetch (completionOrder : List Source)
    (fetch : Source → Option String)
    (hperm : completionOrder.Perm canonicalSources) (s : Source) :
    resultsOf completionOrder fetch s = fetch s := by
  have hmem : s ∈ completionOrder :=
    hperm.mem_iff.mpr (by cases s <;> simp [canonicalSources])
  have hnd : completionOrder.Nodup :=
    (hperm.nodup_iff).mpr (by decide)
  unfold resultsOf
  rw [resultsStep_foldl_mem fetch completionOrder _ s hmem hnd]
  cases hf : fetch s with
  | some d => rfl
  | none => rfl

/-- C7: for every subset of the four sources that fail (raise or time
out), and for every completion order of the four fetch futures, the
merged research document is the document built in the fixed canonical
section order (hackernews, newsapi, arxiv, tavily) in which a failed
source's section reads its "unavailable" placeholder and a fetched
source's section reads its fetched content; the stage returns non-failure
whenever the downstream generation call on that document does. -/
theorem research_partial_degradation (inputData : String)
    (completionOrder : List Source) (fetch : Source → Option String)
    (gen : String → Option String)
    (hperm : completionOrder.Perm canonicalSources) :
    researchRun inputData completionOrder fetch gen
        = gen (mergedDocument inputData fetch) ∧
      (∀ s, fetch s = none →
        sectionText (resultsOf completionOrder fetch) s = placeholderOf s) ∧
      (∀ s d, fetch s = some d →
        sectionText (resultsOf completionOrder fetch) s = d) ∧
      ((gen (mergedDocument inputData fetch)).isSome →
        (researchRun inputData completionOrder fetch gen).isSome) := by
  have hres : resultsOf completionOrder fetch = fetch :=
    funext (resultsOf_eq_fetch completionOrder fetch hperm)
  refine ⟨?_, ?_, ?_, ?_⟩
  · unfold researchRun
    rw [hres]
  · intro s hs
    rw [hres]
    simp [sectionText, hs]
  · intro s d hs
    rw [hres]
    simp [sectionText, hs]
  · intro hsome
    unfold researchRun
    rw [hres]
    exact hsome

/-- C7 witness: hackernews and newsapi fail, arxiv and tavily succeed,
futures complete in reverse canonical order, generation succeeds. -/
theorem research_partial_degradation_witness :
    researchRun "AI agents" [.tavily, .arxiv, .newsapi, .hackernews]
        (fun s => match s with
          | .hackernews => none
          | .newsapi => none
          | .arxiv => some "ARXIV CONTENT"
          | .tavily => some "TAVILY CONTENT")
        some
        = some (mergedDocument "AI agents"
            (fun s => match s with
              | .hackernews => none
              | .newsapi => none
              | .arxiv => some "ARXIV CONTENT"
              | .tavily => some "TAVILY CONTENT")) ∧
      (∀ s : Source, (fun s => match s with
          | Source.hackernews => none
          | Source.newsapi => none
          | Source.arxiv => some "ARXIV CONTENT"
          | Source.tavily => some "TAVILY CONTENT") s = none →
        sectionText (resultsOf [.tavily, .arxiv, .newsapi, .hackernews]
            (fun s => match s with
              | .hackernews => none
              | .newsapi => none
              | .arxiv => some "ARXIV CONTENT"
              | .tavily => some "TAVILY CONTENT")) s = placeholderOf s) :=
  match research_partial_degradation "AI agents"
      [.tavily, .arxiv, .newsapi, .hackernews]
      (fun s => match s with
        | .hackernews => none
        | .newsapi => none
        | .arxiv => some "ARXIV CONTENT"
        | .tavily => some "TAVILY CONTENT")
      some (by decide) with
  | ⟨h1, h2, _, _⟩ => ⟨h1, h2⟩

/-! ### C8: best-performer insight -/

/-- Python `max` keeps its current best when no later element is strictly
greater. -/
theorem foldl_maxLikesStep_fixed {l : List PostRecord} {b : PostRecord}
    (h : ∀ y ∈ l, ¬ b.likes < y.likes) : l.foldl maxLikesStep b = b := by
  induction l with
  | nil => rfl
  | cons y rest ih =>
    simp only [List.foldl_cons]
    have hy : ¬ b.likes < y.likes := h y (List.mem_cons_self y rest)
    rw [maxLikesStep, if_neg hy]
    exact ih fun z hz => h z (List.mem_cons_of_mem y hz)

/-- Python `max` returns the unique strict maximum when there is one. -/
theorem foldl_maxLikesStep_unique {r : PostRecord} :
    ∀ (l : List PostRecord) (b : PostRecord), r ∈ l →
      (∀ y ∈ l, y = r ∨ y.likes < r.likes) → b.likes < r.likes →
      l.foldl maxLikesStep b = r := by
  intro l
  induction l with
  | nil => intro b hr; cases hr
  | cons y rest ih =>
    intro b hr hmax hb
    simp only [List.foldl_cons]
    by_cases hyr : y = r
    · subst hyr
      rw [maxLikesStep, if_pos hb]
      refine foldl_maxLikesStep_fixed fun z hz => ?_
      rcases hmax z (List.mem_cons_of_mem y hz) with h | h
      · rw [h]
        exact lt_irrefl _
      · exact not_lt_of_gt h
    · have hyl : y.likes < r.likes := by
        rcases hmax y (List.mem_cons_self y rest) with h | h
        · exact absurd h hyr
        · exact h
      have hr' : r ∈ rest := by
        rcases List.mem_cons.mp hr with h | h
        · exact absurd h.symm hyr
        · exact h
      have hstep : (maxLikesStep b y).likes < r.likes := by
        rw [maxLikesStep]
        split
        · exact hyl
        · exact hb
      exact ih (maxLikesStep b y) hr'
        (fun z hz => hmax z (List.mem_cons_of_mem y hz)) hstep

/-- The best-performer message never coincides with the "no data"
sentinel (their first characters differ). -/
theorem bestMsg_ne_noData (v t ls : String) :
    ("🏆 BEST PERFORMING VIBE: " ++ v ++ " (Topic: " ++ t ++ " - " ++ ls
        ++ " likes). REPEAT THIS STYLE.")
      ≠ "No past performance data available." := by
  intro h
  have h1 := congrArg (fun x : String => x.data.head?) h
  have h2 : (fun x : String => x.data.head?)
      ("🏆 BEST PERFORMING VIBE: " ++ v ++ " (Topic: " ++ t ++ " - " ++ ls
        ++ " likes). REPEAT THIS STYLE.") = some '🏆' := rfl
  have h3 : (fun x : String => x.data.head?)
      ("No past performance data available." : String) = some 'N' := rfl
  rw [h2, h3] at h1
  exact absurd h1 (by decide)

/-- C8: `get_performance_insights` returns the "no data" sentinel exactly
when history is empty; when one record has strictly more likes than every
other and that count is positive, the result names that record's vibe
(and topic and like count); when every record has zero likes the result
is the "not enough signal" sentinel. -/
theorem getPerformanceInsights_spec (s : Store) (r : PostRecord) :
    (s.history = [] →
      getPerformanceInsights s = "No past performance data available.") ∧
      (s.history ≠ [] →
        getPerformanceInsights s ≠ "No past performance data available.") ∧
      (r ∈ s.history → (∀ y ∈ s.history, y = r ∨ y.likes < r.likes) →
        0 < r.likes →
        getPerformanceInsights s
          = "🏆 BEST PERFORMING VIBE: " ++ r.vibe ++ " (Topic: " ++ r.topic
              ++ " - " ++ toString r.likes ++ " likes). REPEAT THIS STYLE.") ∧
      (s.history ≠ [] → (∀ y ∈ s.history, y.likes = 0) →
        getPerformanceInsights s
          = "Not enough data to determine best vibe yet.") := by
  refine ⟨?_, ?_, ?_, ?_⟩
  · intro h
    simp [getPerformanceInsights, h]
  · intro hne
    cases hh : s.history with
    | nil => exact absurd hh hne
    | cons x rest =>
      simp only [getPerformanceInsights, hh]
      by_cases hpos : (rest.foldl maxLikesStep x).likes > 0
      · rw [if_pos hpos]
        exact bestMsg_ne_noData _ _ _
      · rw [if_neg hpos]
        decide
  · intro hr hmax hpos
    cases hh : s.history with
    | nil =>
      rw [hh] at hr
      cases hr
    | cons x rest =>
      rw [hh] at hr hmax
      have hbest : rest.foldl maxLikesStep x = r := by
        by_cases hxr : x = r
        · subst hxr
          refine foldl_maxLikesStep_fixed fun z hz => ?_
          rcases hmax z (List.mem_cons_of_mem x hz) with h | h
          · rw [h]
            exact lt_irrefl _
          · exact not_lt_of_gt h
        · have hxl : x.likes < r.likes := by
            rcases hmax x (List.mem_cons_self x rest) with h | h
            · exact absurd h hxr
            · exact h
          have hr' : r ∈ rest := by
            rcases List.mem_cons.mp hr with h | h
            · exact absurd h.symm hxr
            · exact h
          exact foldl_maxLikesStep_unique rest x hr'
            (fun z hz => hmax z (List.mem_cons_of_mem x hz)) hxl
      simp only [getPerformanceInsights, hh, hbest, if_pos hpos]
  · intro hne hzero
    cases hh : s.history with
    | nil => exact absurd hh hne
    | cons x rest =>
      rw [hh] at hzero
      have hbest : rest.foldl maxLikesStep x = x := by
        refine foldl_maxLikesStep_fixed fun z hz => ?_
        rw [hzero z (List.mem_cons_of_mem x hz),
          hzero x (List.mem_cons_self x rest)]
        exact lt_irrefl _
      have hxz : ¬ x.likes > 0 := by
        rw [hzero x (List.mem_cons_self x rest)]
        exact lt_irrefl _
      simp only [getPerformanceInsights, hh, hbest, if_neg hxz]

/-- C8 witness: like counts 10, 25, 3 for vibes A, B, C — the insight
names vibe B. -/
theorem getPerformanceInsights_spec_witness :
    getPerformanceInsights
        { rules := [],
          history := [
            { date := .raw "d1", topic := "tA", vibe := "A", urn := "u1",
              likes := 10, comments := 0 },
            { date := .raw "d2", topic := "tB", vibe := "B", urn := "u2",
              likes := 25, comments := 1 },
            { date := .raw "d3", topic := "tC", vibe := "C", urn := "u3",
              likes := 3, comments := 0 }] }
      = "🏆 BEST PERFORMING VIBE: " ++ "B" ++ " (Topic: " ++ "tB" ++ " - "
          ++ toString (25 : Int) ++ " likes). REPEAT THIS STYLE." :=
  (getPerformanceInsights_spec
      { rules := [],
        history := [
          { date := .raw "d1", topic := "tA", vibe := "A", urn := "u1",
            likes := 10, comments := 0 },
          { date := .raw "d2", topic := "tB", vibe := "B", urn := "u2",
            likes := 25, comments := 1 },
          { date := .raw "d3", topic := "tC", vibe := "C", urn := "u3",
            likes := 3, comments := 0 }] }
      { date := .raw "d2", topic := "tB", vibe := "B", urn := "u2",
        likes := 25, comments := 1 }).2.2.1
    (by decide) (by decide) (by decide)

/-! ### C9: publish/history atomicity -/

/-- C9: when `post_content` returns no external post identifier (`None`,
or the falsy empty string), the publish phase writes no history record —
the store's history after the phase is exactly the history before it
(the in-phase critic call touches only rules); when it returns a
non-empty identifier, exactly one new record is appended, carrying the
run's topic, the selected vibe name, that identifier, and zeroed stats,
and the identifier is returned. -/
theorem publishPhase_history (now topic vibe : String)
    (criticGen : Option String) (postUrn : Option String) (s : Store) :
    (postUrn = none →
      (publishPhase now topic vibe criticGen postUrn s).2.history = s.history ∧
        (publishPhase now topic vibe criticGen postUrn s).1 = none) ∧
      ((publishPhase now topic vibe criticGen (some "") s).2.history
        = s.history) ∧
      (∀ urn, postUrn = some urn → urn ≠ "" →
        (publishPhase now topic vibe criticGen postUrn s).2.history
            = s.history ++
              [{ date := .raw now, topic := topic, vibe := vibe, urn := urn,
                 likes := 0, comments := 0 }] ∧
          (publishPhase now topic vibe criticGen postUrn s).1 = some urn) := by
  refine ⟨?_, ?_, ?_⟩
  · intro h
    subst h
    exact ⟨criticRun_history criticGen s, rfl⟩
  · simp [publishPhase, criticRun_history]
  · intro urn hurn hne
    subst hurn
    constructor
    · simp only [publishPhase, if_neg hne]
      simp [addPostHistory, criticRun_history]
    · simp [publishPhase, hne]

/-- C9 witness: a failed publish leaves history unchanged; a publish
returning `"urn:123"` appends exactly the one expected record. -/
theorem publishPhase_history_witness :
    ((publishPhase "2025-01-01T00:00:00" "X" "The Educator" (some "PASS")
        none emptyStore).2.history = emptyStore.history ∧
      (publishPhase "2025-01-01T00:00:00" "X" "The Educator" (some "PASS")
        none emptyStore).1 = none) ∧
      ((publishPhase "2025-01-01T00:00:00" "X" "The Educator" (some "PASS")
          (some "urn:123") emptyStore).2.history
        = emptyStore.history ++
          [{ date := .raw "2025-01-01T00:00:00", topic := "X",
             vibe := "The Educator", urn := "urn:123",
             likes := 0, comments := 0 }] ∧
        (publishPhase "2025-01-01T00:00:00" "X" "The Educator" (some "PASS")
          (some "urn:123") emptyStore).1 = some "urn:123") :=
  ⟨(publishPhase_history "2025-01-01T00:00:00" "X" "The Educator"
      (some "PASS") none emptyStore).1 rfl,
   (publishPhase_history "2025-01-01T00:00:00" "X" "The Educator"
      (some "PASS") (some "urn:123") emptyStore).2.2 "urn:123" rfl (by decide)⟩

/-! ### C10: corrupt-file load does not persist the reset -/

/-- C10: on a file whose content does not parse, `_load` returns the
freshly seeded empty in-memory store without raising, and leaves the
on-disk content unchanged — so an immediately following `_load` reads the
very same corrupt content and again returns the seeded empty store. -/
theorem memLoad_corrupt_frame (c : String) :
    memLoad (.corrupt c) = (emptyStore, .corrupt c) ∧
      memLoad ((memLoad (.corrupt c)).2) = (emptyStore, .corrupt c) :=
  ⟨rfl, rfl⟩

end LinkedInAgents
